import Mathlib

/-!
Verification of the ray tracer in `src/main.rs`.

The repository ships only `main.rs`; the modules `vec`, `ray`, `hit`,
`sphere`, `material` and `camera` it uses are part of the repository but
their sources are not present.  Those parts are modelled from the spec
(sections 3 and 4), as marked on each definition.  Machine floating-point
numbers (f64) are modelled as rationals; the square root is modelled by
the floor square root ratSqrt below, which agrees with the real square
root on perfect squares (all concrete evaluations below only take square
roots of perfect squares, and no property below depends on the value of a
square root of anything else).
-/

deriving instance DecidableEq for Except

/-- The floor square root of a natural number, counted as the number of
positive k with k*k not exceeding n; structurally recursive so that the
kernel can evaluate it. -/
def natSqrt (n : ℕ) : ℕ :=
  ((List.range (n + 1)).filter fun k => decide (k * k ≤ n)).length - 1

/-- The square root on rationals, modelling the machine square root:
exact on perfect squares (the floor square root of numerator and
denominator separately, zero on negatives, mirroring the square root on
rationals from the Mathlib library but kernel-evaluable). -/
def ratSqrt (q : ℚ) : ℚ := mkRat (natSqrt q.num.toNat) (natSqrt q.den)

/-- Modelled from the spec, section 3: Vec3 is a triple of real numbers,
used interchangeably as point, direction, or RGB color.  The missing
module is `vec`. -/
structure Vec3 where
  x : ℚ
  y : ℚ
  z : ℚ
deriving DecidableEq, Repr

/-- A color is a Vec3 by convention (spec, section 3). -/
abbrev Color := Vec3

/-- A point is a Vec3 by convention (spec, section 3). -/
abbrev Point3 := Vec3

instance : Add Vec3 := ⟨fun a b => ⟨a.x + b.x, a.y + b.y, a.z + b.z⟩⟩

instance : Sub Vec3 := ⟨fun a b => ⟨a.x - b.x, a.y - b.y, a.z - b.z⟩⟩

instance : Neg Vec3 := ⟨fun a => ⟨-a.x, -a.y, -a.z⟩⟩

/-- Modelled from the spec, section 4.1: component-wise multiply, used for
color attenuation and tinting. -/
instance : Mul Vec3 := ⟨fun a b => ⟨a.x * b.x, a.y * b.y, a.z * b.z⟩⟩

/-- Scalar multiplication of a vector (spec, section 4.1). -/
instance : SMul ℚ Vec3 := ⟨fun a v => ⟨a * v.x, a * v.y, a * v.z⟩⟩

/-- Modelled from the spec, section 4.1: dot product. -/
def Vec3.dot (a b : Vec3) : ℚ := a.x * b.x + a.y * b.y + a.z * b.z

/-- Modelled from the spec, section 4.1: length squared. -/
def Vec3.length_squared (a : Vec3) : ℚ := a.x * a.x + a.y * a.y + a.z * a.z

/-- Modelled from the spec, section 4.1: length, with the square root
modelled by ratSqrt. -/
def Vec3.length (a : Vec3) : ℚ := ratSqrt a.length_squared

/-- Modelled from the spec, section 4.1: normalize is division by the
length (a precondition violation on the zero vector; rational division by
zero yields zero here). -/
def Vec3.normalized (a : Vec3) : Vec3 := (1 / a.length) • a

/-- Modelled from the spec, section 4.1: reflect(v, n) = v - 2*dot(v,n)*n. -/
def Vec3.reflect (v n : Vec3) : Vec3 := v - (2 * v.dot n) • n

/-- Modelled from the spec, section 4.1 and the reference construction: a
vector is near zero when every component is smaller than 1e-8 in absolute
value. -/
def Vec3.near_zero (v : Vec3) : Prop :=
  |v.x| < 1 / 100000000 ∧ |v.y| < 1 / 100000000 ∧ |v.z| < 1 / 100000000

instance (v : Vec3) : Decidable v.near_zero := by
  unfold Vec3.near_zero; infer_instance

/-- Modelled from the spec, section 3: a ray is an origin plus a
direction.  The missing module is `ray`. -/
structure Ray where
  origin : Point3
  direction : Vec3
deriving DecidableEq, Repr

/-- Modelled from the spec, section 4.2: at(t) = origin + t*direction. -/
def Ray.at (r : Ray) (t : ℚ) : Point3 := r.origin + t • r.direction

/-- Modelled from the spec, sections 3 and 9: the three material variants
as a closed tagged sum.  The missing module is `material`. -/
inductive Material where
  | lambertian (albedo : Color)
  | metal (albedo : Color) (fuzz : ℚ)
  | dielectric (ir : ℚ)
deriving DecidableEq, Repr

/-- Modelled from the spec, sections 4.4 and 5: the random draws a single
scatter call may consume, passed explicitly (each call has a private
random source). -/
structure RandSrc where
  unitVec : Vec3
  inSphere : Vec3
  uniform : ℚ
deriving DecidableEq, Repr

/-- Modelled from the spec, section 3: the transient record of one
surface intersection.  The missing module is `hit`. -/
structure HitRecord where
  p : Point3
  normal : Vec3
  t : ℚ
  front_face : Bool
  mat : Material
deriving DecidableEq, Repr

/-- Modelled from the spec, section 4.4: the Schlick reflectance
approximation R0 + (1-R0)*(1-cos)^5 with R0 = ((1-k)/(1+k))^2. -/
def reflectance (cosine k : ℚ) : ℚ :=
  let r0 := ((1 - k) / (1 + k)) ^ 2
  r0 + (1 - r0) * (1 - cosine) ^ 5

/-- Modelled from the spec, section 4.1: refraction by the standard
perpendicular/parallel decomposition (the total-internal-reflection case
is excluded by the caller). -/
def Vec3.refract (uv n : Vec3) (etai_over_etat : ℚ) : Vec3 :=
  let cos_theta := min ((-uv).dot n) 1
  let r_out_perp := etai_over_etat • (uv + cos_theta • n)
  let r_out_parallel := (-(ratSqrt |1 - r_out_perp.length_squared|)) • n
  r_out_perp + r_out_parallel

/-- Modelled from the spec, section 4.4: the scattering protocol of the
three material variants.  Returns the attenuation and the scattered ray,
or none for absorption. -/
def Material.scatter (m : Material) (rnd : RandSrc) (r : Ray) (rec : HitRecord) :
    Option (Color × Ray) :=
  match m with
  | .lambertian albedo =>
      let d := rec.normal + rnd.unitVec
      let d := if d.near_zero then rec.normal else d
      some (albedo, ⟨rec.p, d⟩)
  | .metal albedo fuzz =>
      let reflected := Vec3.reflect r.direction.normalized rec.normal
      let d := reflected + fuzz • rnd.inSphere
      if d.dot rec.normal > 0 then some (albedo, ⟨rec.p, d⟩) else none
  | .dielectric ir =>
      let k := if rec.front_face then 1 / ir else ir
      let ud := r.direction.normalized
      let cos_theta := min ((-ud).dot rec.normal) 1
      let sin_theta := ratSqrt (1 - cos_theta ^ 2)
      let cannot_refract := k * sin_theta > 1
      let d := if cannot_refract ∨ reflectance cos_theta k > rnd.uniform
        then Vec3.reflect ud rec.normal
        else Vec3.refract ud rec.normal k
      some (⟨1, 1, 1⟩, ⟨rec.p, d⟩)

/-- Modelled from the spec, section 3: a sphere with a shared material.
The missing module is `sphere`. -/
structure Sphere where
  center : Point3
  radius : ℚ
  mat : Material
deriving DecidableEq, Repr

/-- Modelled from the spec, section 4.3, step 4: the hit record built at
parametric distance root: the hit point, the normal (point - center)
over the radius, flipped to oppose the ray when not front-facing, and
front_face from the sign of the dot product with the ray direction. -/
def Sphere.record (s : Sphere) (r : Ray) (root : ℚ) : HitRecord :=
  let p := r.at root
  let outward_normal := (1 / s.radius) • (p - s.center)
  let front_face := r.direction.dot outward_normal < 0
  let normal := if front_face then outward_normal else -outward_normal
  HitRecord.mk p normal root front_face s.mat

/-- Modelled from the spec, section 4.3: sphere intersection by the
half-coefficient quadratic; the smallest root strictly inside
(t_min, t_max) is taken; t_max is a possibly infinite bound. -/
def Sphere.hit (s : Sphere) (r : Ray) (t_min : ℚ) (t_max : WithTop ℚ) :
    Option HitRecord :=
  let oc := r.origin - s.center
  let a := r.direction.length_squared
  let half_b := oc.dot r.direction
  let c := oc.length_squared - s.radius * s.radius
  let discriminant := half_b * half_b - a * c
  if discriminant < 0 then none
  else
    let sqrtd := ratSqrt discriminant
    let root1 := (-half_b - sqrtd) / a
    let root2 := (-half_b + sqrtd) / a
    if t_min < root1 ∧ (root1 : WithTop ℚ) < t_max then some (s.record r root1)
    else if t_min < root2 ∧ (root2 : WithTop ℚ) < t_max then some (s.record r root2)
    else none

/-- Modelled from the spec, sections 3 and 4.3: the world is an
insertion-ordered list of spheres. -/
abbrev World := List Sphere

/-- Modelled from the spec, section 4.3: the loop over the primitives,
carrying the nearest record so far and the closest distance so far as
the shrinking upper bound. -/
def World.hitLoop (r : Ray) (t_min : ℚ) :
    List Sphere → Option HitRecord × WithTop ℚ → Option HitRecord × WithTop ℚ
  | [], acc => acc
  | s :: rest, acc =>
    match s.hit r t_min acc.2 with
    | some rec => World.hitLoop r t_min rest (some rec, (rec.t : WithTop ℚ))
    | none => World.hitLoop r t_min rest acc

/-- Modelled from the spec, section 4.3: the world intersection is a
linear scan keeping the nearest qualifying hit, starting from no record
and the upper bound t_max. -/
def World.hit (w : World) (r : Ray) (t_min : ℚ) (t_max : WithTop ℚ) :
    Option HitRecord :=
  (World.hitLoop r t_min w ((none : Option HitRecord), t_max)).1

/-- The integrator, from `ray_color` in main.rs (lines 26-43).  The
per-bounce random draws of the materials are passed as an explicit
stream, one RandSrc per depth level. -/
def ray_color (rnd : ℕ → RandSrc) (r : Ray) (world : World) (depth : ℕ) : Color :=
  match depth with
  | 0 => ⟨0, 0, 0⟩
  | d + 1 =>
    match World.hit world r (1 / 1000) ⊤ with
    | some rec =>
      match rec.mat.scatter (rnd 0) r rec with
      | some (attenuation, scattered) =>
          attenuation * ray_color (fun n => rnd (n + 1)) scattered world d
      | none => ⟨0, 0, 0⟩
    | none =>
      let unit_direction := r.direction.normalized
      let t := 1 / 2 * (unit_direction.y + 1)
      (1 - t) • (⟨1, 1, 1⟩ : Color) + t • (⟨1 / 2, 7 / 10, 1⟩ : Color)

/-- Image width, from main.rs line 238. -/
def IMAGE_WIDTH : ℕ := 1200

/-- The fixed aspect proportion 3/2, from main.rs line 237. -/
def aspect : ℚ := 3 / 2

/-- Image height, from main.rs line 239: width divided by the aspect
proportion, truncated to an unsigned integer. -/
def IMAGE_HEIGHT : ℕ := (((IMAGE_WIDTH : ℚ) / aspect).floor).toNat

/-- Sample count per pixel, from main.rs line 240. -/
def SAMPLES_PER_PIXEL : ℕ := 500

/-- Maximum recursion depth, from main.rs line 241. -/
def MAX_DEPTH : ℕ := 50

/-- Clamp a channel to the interval [0, 1] (spec, section 4.7). -/
def clamp01 (v : ℚ) : ℚ := max 0 (min 1 v)

/-- Modelled from the spec, section 4.7: the per-pixel quantization --
average by the sample count, clamp each channel to [0,1], gamma-2 correct
by the square root, scale by 256, truncate, clamp to 255, and print the
three integers space-separated.  The missing code is format_color in the
`vec` module, called at main.rs line 275. -/
def format_color (c : Color) (samples : ℕ) : String :=
  let avg : Color := (1 / (samples : ℚ)) • c
  let clamped : Color := ⟨clamp01 avg.x, clamp01 avg.y, clamp01 avg.z⟩
  let gamma : Color := ⟨ratSqrt clamped.x, ratSqrt clamped.y, ratSqrt clamped.z⟩
  let scale : ℚ → ℕ := fun v => min 255 (⌊256 * v⌋).toNat
  toString (scale gamma.x) ++ " " ++ toString (scale gamma.y) ++ " " ++
    toString (scale gamma.z)

/-- The per-pixel accumulation loop of main.rs lines 257-268: the sum of
the SAMPLES_PER_PIXEL per-sample radiance estimates.  The estimate of
sample s at pixel (row j, column i) is abstracted as sample j i s; in the
program it is ray_color at the camera ray of the randomly jittered pixel
coordinate, a value of the external random draws. -/
def pixel_color (sample : ℕ → ℕ → ℕ → Color) (j i : ℕ) : Color :=
  (List.range SAMPLES_PER_PIXEL).foldl (fun acc s => acc + sample j i s) ⟨0, 0, 0⟩

/-- One scanline of main.rs lines 254-272: the pixel colors of row j for
columns 0 to IMAGE_WIDTH-1. -/
def scanline (sample : ℕ → ℕ → ℕ → Color) (j : ℕ) : List Color :=
  (List.range IMAGE_WIDTH).map (pixel_color sample j)

/-- The body lines written by the loop of main.rs lines 251-277: rows are
emitted for j from n-1 down to 0, each row formatted left to right. -/
def body_lines (sample : ℕ → ℕ → ℕ → Color) : ℕ → List String
  | 0 => []
  | j + 1 =>
      (scanline sample j).map (fun c => format_color c SAMPLES_PER_PIXEL) ++
        body_lines sample j

/-- The complete sequence of lines main.rs writes to the output file:
the three header lines of lines 247-249 followed by the pixel lines of
lines 251-277. -/
def render_lines (sample : ℕ → ℕ → ℕ → Color) : List String :=
  "P3" :: (toString IMAGE_WIDTH ++ " " ++ toString IMAGE_HEIGHT) :: "255" ::
    body_lines sample IMAGE_HEIGHT

/-- An XML attribute value, abstracted by what the numeric parsers of
main.rs extract from its text: triple stands for a string whose first
three whitespace-separated parts parse as numbers (accepted by
value_parser, main.rs lines 45-54), num for a string that parses as a
single number (accepted by str::parse), and str for any other string.
The categories are disjoint in the source: a string parsing as one number
has no three parts, and a three-part string does not parse as one
number. -/
inductive AttrValue where
  | str (s : String)
  | num (q : ℚ)
  | triple (a b c : ℚ)
deriving DecidableEq, Repr

/-- The text of an attribute value where the source uses it as a plain
string; numeric values are rendered canonically. -/
def attrText : AttrValue → String
  | .str s => s
  | .num q => toString q
  | .triple a b c => toString a ++ " " ++ toString b ++ " " ++ toString c

/-- An XML element as the scene parser of main.rs sees it: a tag name and
its attributes.  A parsed document is its element nodes in document
order, the form in which roxmltree's descendants() delivers them. -/
structure XmlNode where
  tag : String
  attrs : List (String × AttrValue)
deriving DecidableEq, Repr

/-- Attribute lookup, as node.attribute(name) in main.rs. -/
def findAttr (n : XmlNode) (name : String) : Option AttrValue :=
  (n.attrs.find? (fun p => p.1 == name)).map (fun p => p.2)

/-- The mutable state of the scene parser of main.rs lines 59-78: the
output name, the camera parameters read so far, the world built so far,
and the most recently declared material. -/
structure PState where
  img_name : String
  lookfrom : Point3
  lookat : Point3
  vup : Vec3
  aperture : ℚ
  world : World
  last_mat : Material
deriving DecidableEq, Repr

/-- The ground sphere built unconditionally at main.rs lines 72-75. -/
def groundSphere : Sphere :=
  ⟨⟨0, -1000, 0⟩, 1000, .lambertian ⟨1 / 2, 1 / 2, 1 / 2⟩⟩

/-- The parser state before any node is processed, from main.rs lines
59-78: empty name, zero camera vectors and aperture, the world holding
only the ground sphere, and a black Lambertian as the current
material. -/
def initState : PState :=
  ⟨"", ⟨0, 0, 0⟩, ⟨0, 0, 0⟩, ⟨0, 0, 0⟩, 0, [groundSphere],
    .lambertian ⟨0, 0, 0⟩⟩

/-- The color attribute handling of a material element, main.rs lines
140-143: absent means black, a malformed value aborts inside
value_parser, a triple is taken as the color. -/
def colorAttr (n : XmlNode) : Except String Color :=
  match findAttr n "color" with
  | none => .ok ⟨0, 0, 0⟩
  | some (.triple a b c) => .ok ⟨a, b, c⟩
  | some _ => .error "Failed to parse number 1"

/-- One iteration of the element loop of main.rs lines 81-204.  Each
panic and expect of the source is an error result; elements with other
tags are skipped. -/
def step (s : PState) (n : XmlNode) : Except String PState :=
  match n.tag with
  | "film" =>
      match findAttr n "filename" with
      | some v => .ok { s with img_name := attrText v }
      | none => .ok { s with img_name := "default.ppm" }
  | "camera" =>
      match findAttr n "look_from" with
      | none => .error "Missing camera look from position!"
      | some (.triple a b c) =>
        match findAttr n "look_at" with
        | none => .error "Missing camera look at position!"
        | some (.triple d e f) =>
          match findAttr n "up" with
          | none => .error "Missing camera up position!"
          | some (.triple g h i) =>
            match findAttr n "aperture" with
            | none => .error "Missing camera aperture!"
            | some (.num ap) =>
                .ok { s with lookfrom := ⟨a, b, c⟩, lookat := ⟨d, e, f⟩,
                             vup := ⟨g, h, i⟩, aperture := ap }
            | some _ => .error "Failed to parse camera aperture."
          | some _ => .error "Failed to parse number 1"
        | some _ => .error "Failed to parse number 1"
      | some _ => .error "Failed to parse number 1"
  | "material" =>
      match findAttr n "type" with
      | none => .error "Missing material type!"
      | some tv =>
        match colorAttr n with
        | .error e => .error e
        | .ok color =>
          match attrText tv with
          | "lambertian" => .ok { s with last_mat := .lambertian color }
          | "metal" =>
            match findAttr n "fuzz" with
            | none => .error "Missing material fuzziness."
            | some (.num fz) => .ok { s with last_mat := .metal color fz }
            | some _ => .error "Failed to parse material fuzziness."
          | "dielectric" =>
            match findAttr n "refrect_idx" with
            | none => .error "Missing material refrective index."
            | some (.num ir) => .ok { s with last_mat := .dielectric ir }
            | some _ => .error "Failed to parse material refrective index."
          | _ => .error "The material does not exist!"
  | "object" =>
      match findAttr n "center" with
      | none => .error "Missing object center!"
      | some (.triple a b c) =>
        match findAttr n "radius" with
        | none => .error "Missing object radius."
        | some (.num rad) =>
            .ok { s with world := s.world ++ [⟨⟨a, b, c⟩, rad, s.last_mat⟩] }
        | some _ => .error "Failed to parse object radius."
      | some _ => .error "Failed to parse number 1"
  | _ => .ok s

/-- The element loop of main.rs lines 81-204, processing the document
nodes in order; the first panic aborts the whole construction. -/
def runNodes (s : PState) : List XmlNode → Except String PState
  | [] => .ok s
  | n :: rest =>
    match step s n with
    | .ok s2 => runNodes s2 rest
    | .error e => .error e

/-- Modelled from the spec, section 3: the camera as the record of its
constructor inputs (position, target, up hint, vertical field of view,
aspect proportion, aperture, focus distance); the derived viewport basis
is not needed by any property below.  The missing module is `camera`. -/
structure Camera where
  lookfrom : Point3
  lookat : Point3
  vup : Vec3
  vfov : ℚ
  asp : ℚ
  aperture : ℚ
  dist_to_focus : ℚ
deriving DecidableEq, Repr

/-- The scene parser of main.rs lines 56-217 (there named after the xml
parsing routine): run the element loop from the initial state, then
return the output name, the world, and the camera built from the
collected parameters with the fixed vfov 20, aspect 3/2 and focus
distance 10. -/
def xmlParse (nodes : List XmlNode) : Except String (String × World × Camera) :=
  match runNodes initState nodes with
  | .ok s => .ok (s.img_name, s.world,
      ⟨s.lookfrom, s.lookat, s.vup, 20, aspect, s.aperture, 10⟩)
  | .error e => .error e

/-- The driver of main.rs lines 219-281 after the scene file has been
read: parse the scene, and only on success create the output and write
the render; a parse abort produces no output lines at all. -/
def main_model (nodes : List XmlNode) (sample : ℕ → ℕ → ℕ → Color) :
    Except String (String × List String) :=
  match xmlParse nodes with
  | .ok (name, _, _) => .ok (name, render_lines sample)
  | .error e => .error e

/-! ### Helper lemmas on the vector operations -/

theorem Vec3.add_mk (u v : Vec3) : u + v = ⟨u.x + v.x, u.y + v.y, u.z + v.z⟩ := rfl

theorem Vec3.smul_mk (a : ℚ) (v : Vec3) : a • v = ⟨a * v.x, a * v.y, a * v.z⟩ := rfl

theorem Vec3.mul_mk (u v : Vec3) : u * v = ⟨u.x * v.x, u.y * v.y, u.z * v.z⟩ := rfl

/-! ### The intersection window of the world query -/

/-- A record returned by the sphere test lies at the accepted root. -/
theorem Sphere.hit_root_window (s : Sphere) (r : Ray) (t_min : ℚ) (t_max : WithTop ℚ)
    (rec : HitRecord) (h : s.hit r t_min t_max = some rec) :
    t_min < rec.t ∧ (rec.t : WithTop ℚ) < t_max := by
  simp only [Sphere.hit] at h
  split at h
  · exact absurd h (by simp)
  · split at h
    · rename_i hc
      cases h
      exact hc
    · split at h
      · rename_i hc
        cases h
        exact hc
      · exact absurd h (by simp)

/-- The loop invariant: if every record in the accumulator lies strictly
inside (t_min, t_max) and the closest distance so far does not exceed
t_max, then so does any record the loop returns. -/
theorem World.hitLoop_mem (r : Ray) (t_min : ℚ) (t_max : WithTop ℚ) :
    ∀ (l : List Sphere) (acc : Option HitRecord × WithTop ℚ),
      acc.2 ≤ t_max →
      (∀ rec, acc.1 = some rec → t_min < rec.t ∧ (rec.t : WithTop ℚ) < t_max) →
      ∀ rec, (World.hitLoop r t_min l acc).1 = some rec →
        t_min < rec.t ∧ (rec.t : WithTop ℚ) < t_max := by
  intro l
  induction l with
  | nil => intro acc _ hacc rec h; exact hacc rec h
  | cons s rest ih =>
    intro acc h2 hacc rec h
    rw [World.hitLoop] at h
    rcases hs : s.hit r t_min acc.2 with _ | rec2
    · rw [hs] at h
      exact ih acc h2 hacc rec h
    · rw [hs] at h
      obtain ⟨h1, hlt⟩ := Sphere.hit_root_window s r t_min acc.2 rec2 hs
      exact ih (some rec2, (rec2.t : WithTop ℚ)) (le_trans (le_of_lt hlt) h2)
        (fun rec3 h3 => by
          cases h3
          exact ⟨h1, lt_of_lt_of_le hlt h2⟩) rec h

/-- Any record the world query returns lies strictly inside the
requested window. -/
theorem World.hit_record_window (w : World) (r : Ray) (t_min : ℚ) (t_max : WithTop ℚ)
    (rec : HitRecord) (h : World.hit w r t_min t_max = some rec) :
    t_min < rec.t ∧ (rec.t : WithTop ℚ) < t_max :=
  World.hitLoop_mem r t_min t_max w ((none : Option HitRecord), t_max)
    (le_refl _) (fun _ h0 => by cases h0) rec h

/-! ### The claims about the integrator -/

/-- C2: ray_color at depth 0 is black for every ray and world; the
recursion is truncated at the depth budget. -/
theorem ray_color_depth_zero (rnd : ℕ → RandSrc) (r : Ray) (w : World) :
    ray_color rnd r w 0 = ⟨0, 0, 0⟩ := rfl

/-- C1: at depth at least 1, when the world query returns a record and
its material scatters, ray_color is the attenuation times (component-wise)
the recursive value on the scattered ray at depth one less; when the
material absorbs, ray_color is black. -/
theorem ray_color_bounce (rnd : ℕ → RandSrc) (r : Ray) (w : World) (d : ℕ)
    (rec : HitRecord) (hd : 1 ≤ d)
    (hhit : World.hit w r (1 / 1000) ⊤ = some rec) :
    (∀ att sc, rec.mat.scatter (rnd 0) r rec = some (att, sc) →
      ray_color rnd r w d = att * ray_color (fun n => rnd (n + 1)) sc w (d - 1)) ∧
    (rec.mat.scatter (rnd 0) r rec = none → ray_color rnd r w d = ⟨0, 0, 0⟩) := by
  cases d with
  | zero => exact absurd hd (by simp)
  | succ d =>
    constructor
    · intro att sc hsc
      simp only [ray_color, hhit, hsc, Nat.add_sub_cancel]
    · intro hsc
      simp only [ray_color, hhit, hsc]

unseal Rat.add Rat.sub Rat.mul Rat.inv in
/-- Witness for C1: a single Lambertian sphere straight ahead; the
scatter draw sends the bounce along the normal plus the drawn unit
vector, and ray_color at depth 1 is the albedo times the recursive value
at depth 0. -/
theorem ray_color_bounce_witness :
    ray_color (fun _ => ⟨⟨0, 0, 1⟩, ⟨0, 0, 0⟩, 0⟩) ⟨⟨0, 0, 0⟩, ⟨0, 0, -1⟩⟩
        [⟨⟨0, 0, -2⟩, 1, .lambertian ⟨1 / 2, 1 / 2, 1 / 2⟩⟩] 1 =
      (⟨1 / 2, 1 / 2, 1 / 2⟩ : Color) *
        ray_color (fun n => (fun _ => (⟨⟨0, 0, 1⟩, ⟨0, 0, 0⟩, 0⟩ : RandSrc)) (n + 1))
          ⟨⟨0, 0, -1⟩, ⟨0, 0, 2⟩⟩
          [⟨⟨0, 0, -2⟩, 1, .lambertian ⟨1 / 2, 1 / 2, 1 / 2⟩⟩] 0 :=
  (ray_color_bounce (fun _ => ⟨⟨0, 0, 1⟩, ⟨0, 0, 0⟩, 0⟩) ⟨⟨0, 0, 0⟩, ⟨0, 0, -1⟩⟩
      [⟨⟨0, 0, -2⟩, 1, .lambertian ⟨1 / 2, 1 / 2, 1 / 2⟩⟩] 1
      ⟨⟨0, 0, -1⟩, ⟨0, 0, 1⟩, 1, true, .lambertian ⟨1 / 2, 1 / 2, 1 / 2⟩⟩
      (le_refl 1) (by decide)).1
    ⟨1 / 2, 1 / 2, 1 / 2⟩ ⟨⟨0, 0, -1⟩, ⟨0, 0, 2⟩⟩
    (by decide)

/-- C3: at depth at least 1, when the world query misses, ray_color is
the vertical gradient (1-t)*white + t*sky with t = (y+1)/2 of the unit
direction; at unit y = -1 it is pure white and at unit y = +1 pure
sky-blue. -/
theorem ray_color_background (rnd : ℕ → RandSrc) (r : Ray) (w : World)
    (d : ℕ) (hd : 1 ≤ d)
    (hmiss : World.hit w r (1 / 1000) ⊤ = none) :
    (ray_color rnd r w d =
      (1 - 1 / 2 * (r.direction.normalized.y + 1)) • (⟨1, 1, 1⟩ : Color) +
        (1 / 2 * (r.direction.normalized.y + 1)) • (⟨1 / 2, 7 / 10, 1⟩ : Color)) ∧
    (r.direction.normalized.y = -1 → ray_color rnd r w d = ⟨1, 1, 1⟩) ∧
    (r.direction.normalized.y = 1 → ray_color rnd r w d = ⟨1 / 2, 7 / 10, 1⟩) := by
  cases d with
  | zero => exact absurd hd (by simp)
  | succ d =>
    have hbg : ray_color rnd r w (d + 1) =
        (1 - 1 / 2 * (r.direction.normalized.y + 1)) • (⟨1, 1, 1⟩ : Color) +
          (1 / 2 * (r.direction.normalized.y + 1)) • (⟨1 / 2, 7 / 10, 1⟩ : Color) := by
      simp only [ray_color, hmiss]
    refine ⟨hbg, fun hy => ?_, fun hy => ?_⟩
    · rw [hbg, hy, Vec3.smul_mk, Vec3.smul_mk, Vec3.add_mk]
      norm_num
    · rw [hbg, hy, Vec3.smul_mk, Vec3.smul_mk, Vec3.add_mk]
      norm_num

unseal Rat.add Rat.sub Rat.mul Rat.inv in
/-- Witness for C3: a ray pointed straight down in the empty world has
unit direction y = -1 and ray_color is pure white. -/
theorem ray_color_background_witness :
    ray_color (fun _ => ⟨⟨0, 0, 1⟩, ⟨0, 0, 0⟩, 0⟩) ⟨⟨0, 0, 0⟩, ⟨0, -1, 0⟩⟩ [] 1 =
      (⟨1, 1, 1⟩ : Color) :=
  (ray_color_background (fun _ => ⟨⟨0, 0, 1⟩, ⟨0, 0, 0⟩, 0⟩)
      ⟨⟨0, 0, 0⟩, ⟨0, -1, 0⟩⟩ [] 1 (le_refl 1) (by decide)).2.1 (by decide)

/-- C6: at every depth at least 1 the integrator branches on the world
query with minimum distance 1/1000 and infinite maximum distance, and
any record that query returns lies strictly beyond 1/1000 (and below the
infinite bound), so intersections at or before 1/1000 are excluded. -/
theorem ray_color_query_window (rnd : ℕ → RandSrc) (r : Ray) (w : World)
    (d : ℕ) (hd : 1 ≤ d) :
    (ray_color rnd r w d =
      match World.hit w r (1 / 1000) ⊤ with
      | some rec =>
        match rec.mat.scatter (rnd 0) r rec with
        | some (attenuation, scattered) =>
            attenuation * ray_color (fun n => rnd (n + 1)) scattered w (d - 1)
        | none => ⟨0, 0, 0⟩
      | none =>
        (1 - 1 / 2 * (r.direction.normalized.y + 1)) • (⟨1, 1, 1⟩ : Color) +
          (1 / 2 * (r.direction.normalized.y + 1)) • (⟨1 / 2, 7 / 10, 1⟩ : Color)) ∧
    (∀ rec, World.hit w r (1 / 1000) ⊤ = some rec →
      1 / 1000 < rec.t ∧ (rec.t : WithTop ℚ) < ⊤) := by
  cases d with
  | zero => exact absurd hd (by simp)
  | succ d =>
    constructor
    · rw [ray_color]
      rcases hh : World.hit w r (1 / 1000) ⊤ with _ | rec
      · simp only []
      · simp only [Nat.add_sub_cancel]
    · intro rec hh
      exact World.hit_record_window w r (1 / 1000) ⊤ rec hh

unseal Rat.add Rat.sub Rat.mul Rat.inv in
/-- Witness for C6: the window property instantiated at depth 1 in a
world with one sphere. -/
theorem ray_color_query_window_witness :
    (ray_color (fun _ => ⟨⟨0, 0, 1⟩, ⟨0, 0, 0⟩, 0⟩) ⟨⟨0, 0, 0⟩, ⟨0, 0, -1⟩⟩
        [⟨⟨0, 0, -2⟩, 1, .lambertian ⟨1 / 2, 1 / 2, 1 / 2⟩⟩] 1 =
      match World.hit [⟨⟨0, 0, -2⟩, 1, .lambertian ⟨1 / 2, 1 / 2, 1 / 2⟩⟩]
          ⟨⟨0, 0, 0⟩, ⟨0, 0, -1⟩⟩ (1 / 1000) ⊤ with
      | some rec =>
        match rec.mat.scatter ((fun (_ : ℕ) => (⟨⟨0, 0, 1⟩, ⟨0, 0, 0⟩, 0⟩ : RandSrc)) 0)
            ⟨⟨0, 0, 0⟩, ⟨0, 0, -1⟩⟩ rec with
        | some (attenuation, scattered) =>
            attenuation * ray_color
              (fun n => (fun (_ : ℕ) => (⟨⟨0, 0, 1⟩, ⟨0, 0, 0⟩, 0⟩ : RandSrc)) (n + 1))
              scattered [⟨⟨0, 0, -2⟩, 1, .lambertian ⟨1 / 2, 1 / 2, 1 / 2⟩⟩] (1 - 1)
        | none => ⟨0, 0, 0⟩
      | none =>
        (1 - 1 / 2 * ((⟨0, 0, -1⟩ : Vec3).normalized.y + 1)) • (⟨1, 1, 1⟩ : Color) +
          (1 / 2 * ((⟨0, 0, -1⟩ : Vec3).normalized.y + 1)) • (⟨1 / 2, 7 / 10, 1⟩ : Color)) ∧
    (∀ rec, World.hit [⟨⟨0, 0, -2⟩, 1, .lambertian ⟨1 / 2, 1 / 2, 1 / 2⟩⟩]
        ⟨⟨0, 0, 0⟩, ⟨0, 0, -1⟩⟩ (1 / 1000) ⊤ = some rec →
      1 / 1000 < rec.t ∧ (rec.t : WithTop ℚ) < ⊤) :=
  ray_color_query_window (fun _ => ⟨⟨0, 0, 1⟩, ⟨0, 0, 0⟩, 0⟩)
    ⟨⟨0, 0, 0⟩, ⟨0, 0, -1⟩⟩ [⟨⟨0, 0, -2⟩, 1, .lambertian ⟨1 / 2, 1 / 2, 1 / 2⟩⟩] 1
    (le_refl 1)

/-! ### The claims about the render driver -/

/-- The row loop unfolds to the rows j = n-1, ..., 0 in that order, each
row mapped over its columns left to right. -/
theorem body_lines_eq (sample : ℕ → ℕ → ℕ → Color) (n : ℕ) :
    body_lines sample n =
      (List.range n).reverse.flatMap
        (fun j => (scanline sample j).map
          (fun c => format_color c SAMPLES_PER_PIXEL)) := by
  induction n with
  | zero => rfl
  | succ n ih =>
    rw [body_lines, ih, List.range_succ, List.reverse_append]
    simp [List.flatMap_cons]

/-- The body has one line per pixel. -/
theorem body_lines_length (sample : ℕ → ℕ → ℕ → Color) (n : ℕ) :
    (body_lines sample n).length = n * IMAGE_WIDTH := by
  induction n with
  | zero => rfl
  | succ n ih =>
    rw [body_lines, List.length_append, ih]
    simp [scanline, Nat.succ_mul, Nat.add_comm]

/-- Each formatted pixel line is three space-separated integers, each at
most 255. -/
theorem format_color_shape (c : Color) (samples : ℕ) :
    ∃ a b c2 : ℕ, a ≤ 255 ∧ b ≤ 255 ∧ c2 ≤ 255 ∧
      format_color c samples =
        toString a ++ " " ++ toString b ++ " " ++ toString c2 := by
  refine ⟨_, _, _, min_le_left _ _, min_le_left _ _, min_le_left _ _, rfl⟩

unseal Rat.add Rat.sub Rat.mul Rat.inv in
/-- C4: the output is the exact three header lines P3, 1200 800, 255,
followed by one line per pixel, rows emitted from the visually top row
(j = IMAGE_HEIGHT-1) down to row 0, columns left to right, 960000 lines
in all, each line three space-separated integers in [0, 255]. -/
theorem render_lines_layout (sample : ℕ → ℕ → ℕ → Color) :
    ((render_lines sample).take 3 = ["P3", "1200 800", "255"]) ∧
    ((render_lines sample).drop 3 =
      (List.range IMAGE_HEIGHT).reverse.flatMap
        (fun j => (List.range IMAGE_WIDTH).map
          (fun i => format_color (pixel_color sample j i) SAMPLES_PER_PIXEL))) ∧
    ((render_lines sample).drop 3).length = 960000 ∧
    (∀ j i, ∃ a b c2 : ℕ, a ≤ 255 ∧ b ≤ 255 ∧ c2 ≤ 255 ∧
      format_color (pixel_color sample j i) SAMPLES_PER_PIXEL =
        toString a ++ " " ++ toString b ++ " " ++ toString c2) := by
  refine ⟨?_, ?_, ?_, fun j i => format_color_shape _ _⟩
  · show "P3" :: (toString IMAGE_WIDTH ++ " " ++ toString IMAGE_HEIGHT) :: "255" ::
      List.take 0 (body_lines sample IMAGE_HEIGHT) = _
    rw [List.take_zero]
    have : toString IMAGE_WIDTH ++ " " ++ toString IMAGE_HEIGHT = "1200 800" := by decide
    rw [this]
  · show body_lines sample IMAGE_HEIGHT = _
    rw [body_lines_eq]
    simp only [scanline, List.map_map]
    rfl
  · show (body_lines sample IMAGE_HEIGHT).length = 960000
    rw [body_lines_length]
    decide

/-- The accumulation loop of main.rs lines 257-268 is the component-wise
sum of the per-sample estimates. -/
theorem pixel_color_eq_sum (sample : ℕ → ℕ → ℕ → Color) (j i : ℕ) :
    pixel_color sample j i =
      ⟨∑ s ∈ Finset.range SAMPLES_PER_PIXEL, (sample j i s).x,
       ∑ s ∈ Finset.range SAMPLES_PER_PIXEL, (sample j i s).y,
       ∑ s ∈ Finset.range SAMPLES_PER_PIXEL, (sample j i s).z⟩ := by
  have key : ∀ (n : ℕ) (z : Vec3),
      (List.range n).foldl (fun acc s => acc + sample j i s) z =
        ⟨z.x + ∑ s ∈ Finset.range n, (sample j i s).x,
         z.y + ∑ s ∈ Finset.range n, (sample j i s).y,
         z.z + ∑ s ∈ Finset.range n, (sample j i s).z⟩ := by
    intro n
    induction n with
    | zero => intro z; cases z; simp
    | succ n ih =>
      intro z
      rw [List.range_succ, List.foldl_append, ih]
      simp [Vec3.add_mk, Finset.sum_range_succ, add_assoc]
  rw [pixel_color, key]
  simp

/-- C5: each emitted channel equals the accumulated sample sum averaged
by the sample count, clamped to [0,1], gamma-2 corrected by the square
root, scaled by 256, truncated, and clamped to 255. -/
theorem format_color_quantization (sample : ℕ → ℕ → ℕ → Color) (j i : ℕ) :
    ∃ a b c2 : ℕ,
      format_color (pixel_color sample j i) SAMPLES_PER_PIXEL =
        toString a ++ " " ++ toString b ++ " " ++ toString c2 ∧
      a = min 255 (⌊(256 : ℚ) * ratSqrt (max 0 (min 1
          ((∑ s ∈ Finset.range SAMPLES_PER_PIXEL, (sample j i s).x) /
            (SAMPLES_PER_PIXEL : ℚ))))⌋).toNat ∧
      b = min 255 (⌊(256 : ℚ) * ratSqrt (max 0 (min 1
          ((∑ s ∈ Finset.range SAMPLES_PER_PIXEL, (sample j i s).y) /
            (SAMPLES_PER_PIXEL : ℚ))))⌋).toNat ∧
      c2 = min 255 (⌊(256 : ℚ) * ratSqrt (max 0 (min 1
          ((∑ s ∈ Finset.range SAMPLES_PER_PIXEL, (sample j i s).z) /
            (SAMPLES_PER_PIXEL : ℚ))))⌋).toNat ∧
      a ≤ 255 ∧ b ≤ 255 ∧ c2 ≤ 255 := by
  refine ⟨_, _, _, rfl, ?_, ?_, ?_,
    min_le_left _ _, min_le_left _ _, min_le_left _ _⟩
  all_goals
    simp only [pixel_color_eq_sum, Vec3.smul_mk, clamp01, one_div_mul_eq_div]

/-! ### The claims about scene construction -/

/-- The configuration defects enumerated by the spec, section 7: a
camera element missing look_from, look_at, up or aperture; a material
element missing its type; a metal material missing fuzz; a dielectric
material missing refrect_idx; an unknown material kind; an object
element missing center or radius. -/
def nodeDefect (n : XmlNode) : Prop :=
  (n.tag = "camera" ∧ (findAttr n "look_from" = none ∨
    findAttr n "look_at" = none ∨ findAttr n "up" = none ∨
    findAttr n "aperture" = none)) ∨
  (n.tag = "material" ∧ findAttr n "type" = none) ∨
  (n.tag = "material" ∧
    (∃ tv, findAttr n "type" = some tv ∧ attrText tv = "metal") ∧
    findAttr n "fuzz" = none) ∨
  (n.tag = "material" ∧
    (∃ tv, findAttr n "type" = some tv ∧ attrText tv = "dielectric") ∧
    findAttr n "refrect_idx" = none) ∨
  (n.tag = "material" ∧ ∃ tv, findAttr n "type" = some tv ∧
    attrText tv ≠ "lambertian" ∧ attrText tv ≠ "metal" ∧
    attrText tv ≠ "dielectric") ∨
  (n.tag = "object" ∧ (findAttr n "center" = none ∨ findAttr n "radius" = none))

/-- A node the loop accepts has none of the enumerated defects. -/
theorem step_ok_not_defect (s s2 : PState) (n : XmlNode)
    (h : step s n = .ok s2) : ¬ nodeDefect n := by
  intro hd
  unfold step at h
  repeat' split at h
  all_goals simp_all [nodeDefect]

/-- A defective node anywhere in the document aborts the loop, whatever
state it is reached in. -/
theorem runNodes_error_of_defect (n : XmlNode) (hd : nodeDefect n) :
    ∀ (nodes : List XmlNode), n ∈ nodes → ∀ s, ∃ e, runNodes s nodes = .error e := by
  intro nodes
  induction nodes with
  | nil => intro hmem; cases hmem
  | cons m rest ih =>
    intro hmem s
    rw [runNodes]
    cases hstep : step s m with
    | error e => exact ⟨e, rfl⟩
    | ok s2 =>
      rcases List.mem_cons.mp hmem with heq | hmem2
      · subst heq
        exact absurd hd (step_ok_not_defect s s2 n hstep)
      · exact ih hmem2 s2

/-- C7: a scene description with an unknown material kind or a missing
required parameter aborts scene construction, and the driver then
produces no output lines at all (the output file is created only after a
successful parse). -/
theorem xmlParse_defect_aborts (nodes : List XmlNode)
    (sample : ℕ → ℕ → ℕ → Color) (n : XmlNode) (hmem : n ∈ nodes)
    (hd : nodeDefect n) :
    (∃ e, xmlParse nodes = .error e) ∧
    (∃ e, main_model nodes sample = .error e) := by
  obtain ⟨e, he⟩ := runNodes_error_of_defect n hd nodes hmem initState
  refine ⟨⟨e, ?_⟩, ⟨e, ?_⟩⟩
  · rw [xmlParse, he]
  · rw [main_model, xmlParse, he]

unseal Rat.add Rat.sub Rat.mul Rat.inv in
/-- Witness for C7: a material of unknown kind wood aborts the parse and
the driver. -/
theorem xmlParse_defect_aborts_witness :
    (∃ e, xmlParse [⟨"material", [("type", .str "wood")]⟩] = .error e) ∧
    (∃ e, main_model [⟨"material", [("type", .str "wood")]⟩]
      (fun _ _ _ => ⟨0, 0, 0⟩) = .error e) :=
  xmlParse_defect_aborts [⟨"material", [("type", .str "wood")]⟩]
    (fun _ _ _ => ⟨0, 0, 0⟩) ⟨"material", [("type", .str "wood")]⟩
    (List.Mem.head _)
    (Or.inr (Or.inr (Or.inr (Or.inr (Or.inl
      ⟨rfl, ⟨.str "wood", rfl, by decide, by decide, by decide⟩⟩)))))

/-- One accepted step only ever appends to the world. -/
theorem step_world_extend (s : PState) (n : XmlNode) (s2 : PState)
    (h : step s n = .ok s2) : ∃ tail, s2.world = s.world ++ tail := by
  unfold step at h
  repeat' split at h
  all_goals
    first
    | exact Except.noConfusion h
    | (cases h; exact ⟨[], (List.append_nil _).symm⟩)
    | (cases h; exact ⟨_, rfl⟩)

/-- The loop only ever appends to the world. -/
theorem runNodes_world_extend :
    ∀ (nodes : List XmlNode) (s sf : PState), runNodes s nodes = .ok sf →
      ∃ tail, sf.world = s.world ++ tail := by
  intro nodes
  induction nodes with
  | nil =>
    intro s sf h
    cases h
    exact ⟨[], by simp⟩
  | cons m rest ih =>
    intro s sf h
    rw [runNodes] at h
    cases hstep : step s m with
    | error e => rw [hstep] at h; cases h
    | ok s2 =>
      rw [hstep] at h
      obtain ⟨t1, h1⟩ := step_world_extend s m s2 hstep
      obtain ⟨t2, h2⟩ := ih s2 sf h
      exact ⟨t1 ++ t2, by rw [h2, h1, List.append_assoc]⟩

/-- C8: every accepted scene has the gray Lambertian ground sphere of
radius 1000 centered at (0,-1000,0) as the first element of its world,
inserted before any sphere of the description, so the world is never
empty. -/
theorem xmlParse_ground_first (nodes : List XmlNode) (name : String)
    (w : World) (cam : Camera) (h : xmlParse nodes = .ok (name, w, cam)) :
    w.head? = some groundSphere ∧ w ≠ [] := by
  rw [xmlParse] at h
  cases hrun : runNodes initState nodes with
  | error e => rw [hrun] at h; cases h
  | ok sf =>
    rw [hrun] at h
    obtain ⟨tail, hw⟩ := runNodes_world_extend nodes initState sf hrun
    have hw2 : sf.world = groundSphere :: tail := hw
    have hweq : w = sf.world := by
      cases h
      rfl
    rw [hweq, hw2]
    exact ⟨rfl, by simp⟩

unseal Rat.add Rat.sub Rat.mul Rat.inv in
/-- Witness for C8: the empty description yields the world holding just
the ground sphere. -/
theorem xmlParse_ground_first_witness :
    ([groundSphere] : World).head? = some groundSphere ∧
      ([groundSphere] : World) ≠ [] :=
  xmlParse_ground_first [] "" [groundSphere]
    ⟨⟨0, 0, 0⟩, ⟨0, 0, 0⟩, ⟨0, 0, 0⟩, 20, aspect, 0, 10⟩ (by decide)

/-- Only a material element changes the current material. -/
theorem step_lastMat (s : PState) (n : XmlNode) (s2 : PState)
    (ht : n.tag ≠ "material") (h : step s n = .ok s2) :
    s2.last_mat = s.last_mat := by
  unfold step at h
  repeat' split at h
  all_goals
    first
    | exact Except.noConfusion h
    | (cases h; rfl)
    | simp_all

/-- Over a material-free prefix the loop keeps the initial current
material. -/
theorem runNodes_lastMat :
    ∀ (nodes : List XmlNode) (s sf : PState),
      (∀ m ∈ nodes, m.tag ≠ "material") → runNodes s nodes = .ok sf →
      sf.last_mat = s.last_mat := by
  intro nodes
  induction nodes with
  | nil =>
    intro s sf _ h
    cases h
    rfl
  | cons m rest ih =>
    intro s sf hnm h
    rw [runNodes] at h
    cases hstep : step s m with
    | error e => rw [hstep] at h; cases h
    | ok s2 =>
      rw [hstep] at h
      rw [ih s2 sf (fun m2 hm2 => hnm m2 (List.mem_cons_of_mem m hm2)) h]
      exact step_lastMat s m s2 (hnm m (List.Mem.head _)) hstep

/-- The loop over an appended document processes the first part and, on
success, continues with the second from the reached state. -/
theorem runNodes_append (l1 l2 : List XmlNode) (s : PState) :
    runNodes s (l1 ++ l2) =
      match runNodes s l1 with
      | .ok s2 => runNodes s2 l2
      | .error e => .error e := by
  induction l1 generalizing s with
  | nil => rfl
  | cons m rest ih =>
    rw [List.cons_append, runNodes, runNodes]
    cases step s m with
    | error e => rfl
    | ok s2 => exact ih s2

/-- C9: an object element that appears before any material element is
given the black Lambertian initial material; a material element without
a color attribute is accepted and its color defaults to black, for each
of the three kinds. -/
theorem xmlParse_black_defaults :
    (∀ (pre rest : List XmlNode) (n : XmlNode) (a b c rad : ℚ)
      (name : String) (w : World) (cam : Camera),
      (∀ m ∈ pre, m.tag ≠ "material") → n.tag = "object" →
      findAttr n "center" = some (.triple a b c) →
      findAttr n "radius" = some (.num rad) →
      xmlParse (pre ++ n :: rest) = .ok (name, w, cam) →
      Sphere.mk ⟨a, b, c⟩ rad (.lambertian ⟨0, 0, 0⟩) ∈ w) ∧
    (∀ (s : PState) (n : XmlNode),
      n.tag = "material" → findAttr n "type" = some (.str "lambertian") →
      findAttr n "color" = none →
      step s n = .ok { s with last_mat := .lambertian ⟨0, 0, 0⟩ }) ∧
    (∀ (s : PState) (n : XmlNode) (fz : ℚ),
      n.tag = "material" → findAttr n "type" = some (.str "metal") →
      findAttr n "color" = none → findAttr n "fuzz" = some (.num fz) →
      step s n = .ok { s with last_mat := .metal ⟨0, 0, 0⟩ fz }) ∧
    (∀ (s : PState) (n : XmlNode) (ir : ℚ),
      n.tag = "material" → findAttr n "type" = some (.str "dielectric") →
      findAttr n "color" = none → findAttr n "refrect_idx" = some (.num ir) →
      step s n = .ok { s with last_mat := .dielectric ir }) := by
  have hobj : ∀ (s : PState) (n : XmlNode) (a b c rad : ℚ),
      n.tag = "object" → findAttr n "center" = some (.triple a b c) →
      findAttr n "radius" = some (.num rad) →
      step s n = .ok { s with world := s.world ++ [⟨⟨a, b, c⟩, rad, s.last_mat⟩] } := by
    intro s n a b c rad ht hc hr
    unfold step
    rw [ht, hc, hr]
    rfl
  refine ⟨?_, ?_, ?_, ?_⟩
  · intro pre rest n a b c rad name w cam hnm ht hc hr h
    rw [xmlParse] at h
    cases hrun : runNodes initState (pre ++ n :: rest) with
    | error e => rw [hrun] at h; cases h
    | ok sf =>
      rw [hrun] at h
      have hweq : w = sf.world := by cases h; rfl
      rw [runNodes_append] at hrun
      cases hpre : runNodes initState pre with
      | error e => rw [hpre] at hrun; cases hrun
      | ok s1 =>
        rw [hpre] at hrun
        have hlm : s1.last_mat = Material.lambertian ⟨0, 0, 0⟩ :=
          runNodes_lastMat pre initState s1 hnm hpre
        have hrun2 : runNodes s1 (n :: rest) = .ok sf := hrun
        rw [runNodes, hobj s1 n a b c rad ht hc hr] at hrun2
        obtain ⟨tail, htail⟩ := runNodes_world_extend rest _ sf hrun2
        rw [hweq, htail]
        refine List.mem_append_left tail ?_
        refine List.mem_append_right s1.world ?_
        rw [hlm]
        exact List.Mem.head _
  · intro s n ht htype hcolor
    unfold step
    rw [ht, htype, colorAttr, hcolor]
    rfl
  · intro s n fz ht htype hcolor hfz
    unfold step
    rw [ht, htype, colorAttr, hcolor, hfz]
    rfl
  · intro s n ir ht htype hcolor hir
    unfold step
    rw [ht, htype, colorAttr, hcolor, hir]
    rfl

unseal Rat.add Rat.sub Rat.mul Rat.inv in
/-- Witness for C9: an object declared with no preceding material gets
the black Lambertian, and a color-less lambertian material element is
accepted with black albedo. -/
theorem xmlParse_black_defaults_witness :
    (Sphere.mk ⟨0, 1, 0⟩ 1 (.lambertian ⟨0, 0, 0⟩) ∈
      ([groundSphere, ⟨⟨0, 1, 0⟩, 1, .lambertian ⟨0, 0, 0⟩⟩] : World)) ∧
    (step initState ⟨"material", [("type", .str "lambertian")]⟩ =
      .ok { initState with last_mat := .lambertian ⟨0, 0, 0⟩ }) :=
  ⟨xmlParse_black_defaults.1 [] []
      ⟨"object", [("center", .triple 0 1 0), ("radius", .num 1)]⟩ 0 1 0 1
      "" [groundSphere, ⟨⟨0, 1, 0⟩, 1, .lambertian ⟨0, 0, 0⟩⟩]
      ⟨⟨0, 0, 0⟩, ⟨0, 0, 0⟩, ⟨0, 0, 0⟩, 20, aspect, 0, 10⟩
      (by simp) rfl (by decide) (by decide) (by decide),
    xmlParse_black_defaults.2.1 initState
      ⟨"material", [("type", .str "lambertian")]⟩ rfl (by decide) (by decide)⟩

/-- Only a film element changes the output name. -/
theorem step_imgName (s : PState) (n : XmlNode) (s2 : PState)
    (ht : n.tag ≠ "film") (h : step s n = .ok s2) :
    s2.img_name = s.img_name := by
  unfold step at h
  repeat' split at h
  all_goals
    first
    | exact Except.noConfusion h
    | (cases h; rfl)
    | simp_all

/-- Over a film-free suffix the loop keeps the output name. -/
theorem runNodes_imgName :
    ∀ (nodes : List XmlNode) (s sf : PState),
      (∀ m ∈ nodes, m.tag ≠ "film") → runNodes s nodes = .ok sf →
      sf.img_name = s.img_name := by
  intro nodes
  induction nodes with
  | nil =>
    intro s sf _ h
    cases h
    rfl
  | cons m rest ih =>
    intro s sf hnf h
    rw [runNodes] at h
    cases hstep : step s m with
    | error e => rw [hstep] at h; cases h
    | ok s2 =>
      rw [hstep] at h
      rw [ih s2 sf (fun m2 hm2 => hnf m2 (List.mem_cons_of_mem m hm2)) h]
      exact step_imgName s m s2 (hnf m (List.Mem.head _)) hstep

/-- C10: a film element without a filename attribute never aborts -- the
step always succeeds and falls back to the name default.ppm -- and when
such a film element is the last film element of an accepted document the
returned output name is default.ppm. -/
theorem film_missing_filename_default :
    (∀ (s : PState) (n : XmlNode),
      n.tag = "film" → findAttr n "filename" = none →
      step s n = .ok { s with img_name := "default.ppm" }) ∧
    (∀ (pre rest : List XmlNode) (n : XmlNode) (name : String)
      (w : World) (cam : Camera),
      n.tag = "film" → findAttr n "filename" = none →
      (∀ m ∈ rest, m.tag ≠ "film") →
      xmlParse (pre ++ n :: rest) = .ok (name, w, cam) →
      name = "default.ppm") := by
  have hfilm : ∀ (s : PState) (n : XmlNode),
      n.tag = "film" → findAttr n "filename" = none →
      step s n = .ok { s with img_name := "default.ppm" } := by
    intro s n ht hf
    unfold step
    rw [ht, hf]
    rfl
  refine ⟨hfilm, ?_⟩
  intro pre rest n name w cam ht hf hnf h
  rw [xmlParse] at h
  cases hrun : runNodes initState (pre ++ n :: rest) with
  | error e => rw [hrun] at h; cases h
  | ok sf =>
    rw [hrun] at h
    have hname : name = sf.img_name := by cases h; rfl
    rw [runNodes_append] at hrun
    cases hpre : runNodes initState pre with
    | error e => rw [hpre] at hrun; cases hrun
    | ok s1 =>
      rw [hpre] at hrun
      have hrun2 : runNodes s1 (n :: rest) = .ok sf := hrun
      rw [runNodes, hfilm s1 n ht hf] at hrun2
      rw [hname, runNodes_imgName rest _ sf hnf hrun2]

unseal Rat.add Rat.sub Rat.mul Rat.inv in
/-- Witness for C10: a lone film element with no attributes is accepted
and the returned name is default.ppm. -/
theorem film_missing_filename_default_witness :
    (step initState ⟨"film", []⟩ =
      .ok { initState with img_name := "default.ppm" }) ∧
    ("default.ppm" : String) = "default.ppm" :=
  ⟨film_missing_filename_default.1 initState ⟨"film", []⟩ rfl rfl,
    film_missing_filename_default.2 [] [] ⟨"film", []⟩ "default.ppm"
      [groundSphere] ⟨⟨0, 0, 0⟩, ⟨0, 0, 0⟩, ⟨0, 0, 0⟩, 20, aspect, 0, 10⟩
      rfl rfl (by simp) (by decide)⟩
